import Mathlib

/-!
Shallow embedding of `src/main.py` (a RAG pipeline script: PDF loader →
chunker → Pinecone index build → similarity retrieval → Gemini generation).

External services (filesystem/PDF parsing, the text splitter, the Pinecone
index, the language model) are modelled as oracle parameters; the script's
own control flow is embedded as pure functions that also return the ordered
list of observable effects (prints, remote index operations, queries,
generation calls) the run issues.
-/

namespace RAG

/-- A loaded langchain document: one PDF page (source path, page number,
page text). -/
structure Document where
  source : String
  page : Nat
  page_content : String
deriving DecidableEq, Repr

/-- The chunker also yields langchain documents (bounded text segments). -/
abbrev Chunk := Document

/-- The record shape upserted by `setup_pinecone_index`:
`{"_id": ..., "chunk_text": ..., "category": ...}`. -/
structure IndexRecord where
  _id : String
  chunk_text : String
  category : String
deriving DecidableEq, Repr

/-- A similarity hit returned by the remote index (opaque payload). -/
structure Hit where
  raw : String
deriving DecidableEq, Repr

/-- The request shape of `index.query(namespace=..., query={"top_k": ..,
"inputs": {"text": ..}})`. -/
structure QueryRequest where
  ns : String
  top_k : Nat
  text : String
deriving DecidableEq, Repr

/-- Observable effects of a run, in issue order. -/
inductive Effect where
  | print (msg : String)
  | listIndexes
  | deleteIndex (name : String)
  | sleep (seconds : Nat)
  | createIndex (name cloud region model fieldKey fieldValue : String)
  | openIndex (name : String)
  | upsert (ns : String) (batch : List IndexRecord)
  | describeStats
  | query (ns : String) (top_k : Nat) (text : String)
  | generate (question : String) (context : List Hit)
  | raised (msg : String)
deriving DecidableEq, Repr

/-- `read_doc(directory)`: the `PyPDFDirectoryLoader` outcome is the oracle
input (`Except.error` = the loader raised). The function catches any
failure, prints a message and returns `[]`; on an empty load it prints a
notice. Returns the document list and the print trace. -/
def read_doc (directory : String) (loadResult : Except String (List Document)) :
    List Document × List Effect :=
  match loadResult with
  | Except.ok documents =>
      (documents,
        if documents.isEmpty then
          [Effect.print ("No PDF files found in directory: " ++ directory)]
        else [])
  | Except.error e =>
      ([], [Effect.print ("Error loading documents from " ++ directory ++ ": " ++ e)])

/-- Modelled from the spec: the constructor of the external text splitter
(`RecursiveCharacterTextSplitter`, a library whose code is not part of this
repository) as used by `chunk_data`. The spec requires: "Overlap must be
strictly less than chunk size (implementer should validate and fail fast
otherwise)". -/
def mkTextSplitter (chunk_size chunk_overlap : Nat) : Except String Unit :=
  if chunk_overlap < chunk_size then Except.ok ()
  else Except.error "Got a larger chunk overlap than chunk size, should be smaller."

/-- `chunk_data(docs, chunk_size, chunk_overlap)`: returns `[]` at once (with
a printed notice) when `docs` is empty; otherwise constructs the splitter
(which validates the parameters) and delegates the actual splitting to the
library, modelled by the `split` oracle. An `Except.error` result models an
exception propagating out of `chunk_data`. -/
def chunk_data (split : List Document → List Chunk) (docs : List Document)
    (chunk_size chunk_overlap : Nat) :
    Except String (List Chunk) × List Effect :=
  if docs.isEmpty then
    (Except.ok [], [Effect.print "No documents to chunk."])
  else
    match mkTextSplitter chunk_size chunk_overlap with
    | Except.error e => (Except.error e, [])
    | Except.ok _ => (Except.ok (split docs), [])

/-- Fixed result count requested when `retrieve_answers` calls
`retrieve_query` without a `k` argument: `def retrieve_query(query, k=2)`. -/
def retrieve_query_default_k : Nat := 2

/-- `retrieve_query(query, k)`: issues one similarity query against
namespace `"default"` with `top_k = k`, flattens the response hits
(`[hit for hit in results['result']['hits']]` is the identity on the hit
list). The remote index is the `oracle`. Returns the hits and the trace. -/
def retrieve_query (oracle : QueryRequest → List Hit) (query : String) (k : Nat) :
    List Hit × List Effect :=
  let results := oracle { ns := "default", top_k := k, text := query }
  (results, [Effect.query "default" k query])

/-- `retrieve_answers(query)`: retrieves with the default `k`, prints the
hits, and invokes the QA chain (the `generator` oracle) on the retrieved
context and the question. Returns the answer and the trace. -/
def retrieve_answers (oracle : QueryRequest → List Hit)
    (generator : String → List Hit → String) (query : String) :
    String × List Effect :=
  let rq := retrieve_query oracle query retrieve_query_default_k
  let doc_search := rq.1
  let response := generator query doc_search
  (response,
    rq.2 ++ [Effect.print ("Retrieved documents: " ++ toString (repr doc_search)),
             Effect.generate query doc_search])

/-- The hard-coded index name of `setup_pinecone_index`. -/
def index_name : String := "lanchain"

/-- The record list built by `setup_pinecone_index`:
`[{"_id": f"doc_{i}", "chunk_text": doc.page_content, "category": "budget"}
for i, doc in enumerate(documents)]`. -/
def buildRecords (documents : List Chunk) : List IndexRecord :=
  documents.enum.map fun p =>
    { _id := "doc_" ++ Nat.repr p.1, chunk_text := p.2.page_content, category := "budget" }

/-- The batches sliced by the upsert loop:
`for i in range(0, len(records), batch_size): batch = records[i:i+batch_size]`
with `batch_size = 50`. `List.range' 0 k 50` is `range(0, n, 50)` when
`k = (n + 50 - 1) / 50`, and `records[i:i+50]` is `(records.drop i).take 50`. -/
def upsertBatches {α : Type} (records : List α) : List (List α) :=
  (List.range' 0 ((records.length + 50 - 1) / 50) 50).map
    fun i => (records.drop i).take 50

/-- The trace of the upsert loop: per iteration a progress print
(`f"Upserting batch {i//batch_size + 1} with {len(batch)} records"`) followed
by `index.upsert_records(namespace="default", records=batch)`. -/
def upsert_phase (records : List IndexRecord) : List Effect :=
  (List.range' 0 ((records.length + 50 - 1) / 50) 50).flatMap fun i =>
    [Effect.print ("Upserting batch " ++ Nat.repr (i / 50 + 1) ++ " with "
        ++ Nat.repr ((records.drop i).take 50).length ++ " records"),
     Effect.upsert "default" ((records.drop i).take 50)]

/-- `setup_pinecone_index(documents)`: lists the existing indexes (the
`existing` oracle is `pc.list_indexes().names()`), deletes `"lanchain"` if
present and sleeps 10s, creates the index with the integrated embedding
model and field map `{"text": "chunk_text"}`, sleeps 10s, opens the handle,
upserts the built records in batches of 50 into namespace `"default"`, and
prints the stats. Returns the index handle (its name) and the trace. -/
def setup_pinecone_index (existing : List String) (documents : List Chunk) :
    String × List Effect :=
  let records := buildRecords documents
  (index_name,
    [Effect.listIndexes]
    ++ (if index_name ∈ existing then
          [Effect.print ("Deleting existing index \x27" ++ index_name ++ "\x27..."),
           Effect.deleteIndex index_name, Effect.sleep 10]
        else [])
    ++ [Effect.print ("Creating index \x27" ++ index_name ++ "\x27 with integrated embedding..."),
        Effect.createIndex index_name "aws" "us-east-1" "llama-text-embed-v2" "text" "chunk_text",
        Effect.sleep 10, Effect.openIndex index_name]
    ++ upsert_phase records
    ++ [Effect.print ("Upserted " ++ Nat.repr documents.length ++ " documents into index \x27"
          ++ index_name ++ "\x27."),
        Effect.describeStats])

/-- Hard-coded documents directory of `main`. -/
def DOCUMENTS_DIRECTORY : String := "F:\\DBLear\\documents"

/-- Hard-coded question of `main`. -/
def QUERY : String := "How much the agriculture target will be increased by how many crore?"

/-- `main()`: loads, short-circuits on an empty document list, chunks with
the default parameters (800, 50), builds the index, initializes the LLM and
chain, and answers the hard-coded query. All remote behavior comes from the
oracles; the result is the effect trace of the run. -/
def main_run (loadResult : Except String (List Document))
    (split : List Document → List Chunk) (existing : List String)
    (oracle : QueryRequest → List Hit)
    (generator : String → List Hit → String) : List Effect :=
  let rd := read_doc DOCUMENTS_DIRECTORY loadResult
  let doc := rd.1
  let t0 := Effect.print "Loading documents..." :: rd.2
      ++ [Effect.print ("Number of documents loaded: " ++ Nat.repr doc.length)]
  if doc.isEmpty then
    t0 ++ [Effect.print "No documents found. Please check the directory path."]
  else
    let cd := chunk_data split doc 800 50
    match cd.1 with
    | Except.error e =>
        t0 ++ [Effect.print "Chunking documents..."] ++ cd.2 ++ [Effect.raised e]
    | Except.ok documents =>
        let ra := retrieve_answers oracle generator QUERY
        t0 ++ [Effect.print "Chunking documents..."] ++ cd.2
        ++ [Effect.print ("Number of documents after chunking: " ++ Nat.repr documents.length),
            Effect.print "Setting up Pinecone index..."]
        ++ (setup_pinecone_index existing documents).2
        ++ [Effect.print "Initializing LLM and QA chain...",
            Effect.print ("Processing query: " ++ QUERY)]
        ++ ra.2
        ++ [Effect.print ("Answer: " ++ ra.1)]

/-- The required credentials checked in the `__main__` guard. -/
def required_vars : List String := ["GOOGLE_API_KEY", "PINECONE_API_KEY"]

/-- Python truthiness of `os.environ.get(var)`: missing when the variable is
absent (`None`) or set to the empty string. -/
def envMissing (v : Option String) : Bool :=
  match v with
  | none => true
  | some s => s.isEmpty

/-- `missing_vars = [var for var in required_vars if not os.environ.get(var)]`. -/
def missing_vars (env : String → Option String) : List String :=
  required_vars.filter fun v => envMissing (env v)

/-- The `if __name__ == "__main__":` guard: on any missing credential it
prints the missing names and exits with code 1 (second component
`some 1`) without running the pipeline; otherwise it runs `main`. -/
def entry_point (env : String → Option String)
    (loadResult : Except String (List Document))
    (split : List Document → List Chunk) (existing : List String)
    (oracle : QueryRequest → List Hit)
    (generator : String → List Hit → String) : List Effect × Option Nat :=
  if (missing_vars env).isEmpty then
    (main_run loadResult split existing oracle generator, none)
  else
    ([Effect.print ("Error: Missing required environment variables: "
        ++ String.intercalate ", " (missing_vars env)),
      Effect.print "Please create a .env file with your API keys."], some 1)

/-! ### Helper view of the upsert batching -/

/-- Recursive view of slicing a list into successive 50-element pieces. -/
def chunksOf {α : Type} : List α → List (List α)
  | [] => []
  | a :: t => ((a :: t).take 50) :: chunksOf ((a :: t).drop 50)
termination_by l => l.length
decreasing_by simp only [List.length_drop, List.length_cons]; omega

theorem map_range'_shift {β : Type} (f : Nat → β) (k : Nat) :
    ∀ s step : Nat, (List.range' (s + step) k step).map f
      = (List.range' s k step).map fun i => f (i + step) := by
  induction k with
  | zero => intro s step; rfl
  | succ k ih =>
      intro s step
      rw [List.range'_succ, List.range'_succ, List.map_cons, List.map_cons, ih (s + step) step]

theorem upsertBatches_eq_chunksOf {α : Type} : (records : List α) →
    upsertBatches records = chunksOf records
  | [] => by simp [upsertBatches, chunksOf]
  | a :: t => by
      have ih := upsertBatches_eq_chunksOf ((a :: t).drop 50)
      have hk : ((a :: t).length + 50 - 1) / 50
          = ((((a :: t).drop 50).length + 50 - 1) / 50) + 1 := by
        simp only [List.length_drop, List.length_cons]; omega
      show (List.range' 0 (((a :: t).length + 50 - 1) / 50) 50).map
          (fun i => ((a :: t).drop i).take 50) = chunksOf (a :: t)
      rw [hk, List.range'_succ, List.map_cons]
      rw [show (0 : Nat) + 50 = 0 + 50 from rfl, map_range'_shift]
      have htail : ((List.range' 0 ((((a :: t).drop 50).length + 50 - 1) / 50) 50).map
            fun i => ((a :: t).drop (i + 50)).take 50)
          = upsertBatches ((a :: t).drop 50) := by
        unfold upsertBatches
        refine List.map_congr_left fun i _ => ?_
        rw [List.drop_drop, Nat.add_comm i 50]
      rw [htail, ih]
      simp [chunksOf]
termination_by records => records.length
decreasing_by simp only [List.length_drop, List.length_cons]; omega

theorem chunksOf_flatten {α : Type} : (l : List α) → (chunksOf l).flatten = l
  | [] => by simp [chunksOf]
  | a :: t => by
      have ih := chunksOf_flatten ((a :: t).drop 50)
      simp only [chunksOf, List.flatten_cons, ih, List.take_append_drop]
termination_by l => l.length
decreasing_by simp only [List.length_drop, List.length_cons]; omega

theorem upsertBatches_flatten {α : Type} (records : List α) :
    (upsertBatches records).flatten = records := by
  rw [upsertBatches_eq_chunksOf, chunksOf_flatten]

theorem upsertBatches_length {α : Type} (records : List α) :
    (upsertBatches records).length = (records.length + 50 - 1) / 50 := by
  unfold upsertBatches
  rw [List.length_map, List.length_range']

theorem upsertBatches_size_le {α : Type} (records : List α) :
    ∀ b ∈ upsertBatches records, b.length ≤ 50 := by
  intro b hb
  unfold upsertBatches at hb
  obtain ⟨i, _, rfl⟩ := List.mem_map.1 hb
  simp only [List.length_take]
  omega

theorem upsertBatches_getElem {α : Type} (records : List α) (j : Nat)
    (h : j < (upsertBatches records).length) :
    (upsertBatches records)[j] = (records.drop (50 * j)).take 50 := by
  unfold upsertBatches at h ⊢
  rw [List.getElem_map, List.getElem_range']
  rw [Nat.zero_add]

theorem upsertBatches_full_size {α : Type} (records : List α) :
    ∀ b ∈ (upsertBatches records).dropLast, b.length = 50 := by
  intro b hb
  obtain ⟨i, hi⟩ := List.mem_iff_get.1 hb
  have hlt : i.1 < (upsertBatches records).length - 1 := by
    have := i.2
    simpa [List.length_dropLast] using this
  have hget : (upsertBatches records).dropLast.get i
      = (upsertBatches records).get ⟨i.1, by omega⟩ := by
    simp only [List.get_eq_getElem, List.getElem_dropLast]
  rw [← hi, hget, List.get_eq_getElem, upsertBatches_getElem records i.1 (by omega)]
  have hlen := upsertBatches_length records
  simp only [List.length_take, List.length_drop]
  rw [hlen] at hlt
  omega

/-! ### Injectivity of the decimal identifiers `doc_<i>` -/

/-- Decimal digit characters of `n`, most significant first (the list
`Nat.toDigitsCore` accumulates). -/
def decDigits (n : Nat) : List Char :=
  if n < 10 then [Nat.digitChar n]
  else decDigits (n / 10) ++ [Nat.digitChar (n % 10)]
termination_by n
decreasing_by exact Nat.div_lt_self (by omega) (by omega)

theorem decDigits_lt (n : Nat) (h : n < 10) : decDigits n = [Nat.digitChar n] := by
  unfold decDigits
  simp [h]

theorem decDigits_ge (n : Nat) (h : 10 ≤ n) :
    decDigits n = decDigits (n / 10) ++ [Nat.digitChar (n % 10)] := by
  conv_lhs => unfold decDigits
  simp [Nat.not_lt.2 h]

theorem toDigitsCore_eq_decDigits :
    ∀ (fuel n : Nat) (ds : List Char), n < fuel →
      Nat.toDigitsCore 10 fuel n ds = decDigits n ++ ds := by
  intro fuel
  induction fuel with
  | zero => intro n ds h; omega
  | succ fuel ih =>
      intro n ds h
      simp only [Nat.toDigitsCore]
      by_cases h0 : n / 10 = 0
      · have hn : n < 10 := by omega
        simp [h0, decDigits_lt n hn, Nat.mod_eq_of_lt hn]
      · have hn : 10 ≤ n := by omega
        have hlt : n / 10 < fuel := by omega
        simp only [h0, if_false]
        rw [ih (n / 10) (Nat.digitChar (n % 10) :: ds) hlt, decDigits_ge n hn,
          List.append_assoc, List.singleton_append]

/-- Numeric value of a digit character (partial inverse of `Nat.digitChar`). -/
def charVal (c : Char) : Nat :=
  if c = '0' then 0 else if c = '1' then 1 else if c = '2' then 2
  else if c = '3' then 3 else if c = '4' then 4 else if c = '5' then 5
  else if c = '6' then 6 else if c = '7' then 7 else if c = '8' then 8 else 9

theorem charVal_digitChar (d : Nat) (h : d < 10) : charVal (Nat.digitChar d) = d := by
  interval_cases d <;> decide

/-- Value of a most-significant-first decimal digit list. -/
def decVal (l : List Char) : Nat :=
  l.foldl (fun acc c => 10 * acc + charVal c) 0

theorem decVal_decDigits : (n : Nat) → decVal (decDigits n) = n
  | n => by
      by_cases h : n < 10
      · rw [decDigits_lt n h]
        simp [decVal, charVal_digitChar n h]
      · have ih := decVal_decDigits (n / 10)
        rw [decDigits_ge n (by omega)]
        simp only [decVal, List.foldl_append] at ih ⊢
        rw [ih]
        simp only [List.foldl_cons, List.foldl_nil,
          charVal_digitChar (n % 10) (by omega)]
        omega
termination_by n => n
decreasing_by exact Nat.div_lt_self (by omega) (by omega)

theorem repr_eq_decDigits (n : Nat) : Nat.repr n = (decDigits n).asString := by
  show (Nat.toDigitsCore 10 (n + 1) n []).asString = (decDigits n).asString
  rw [toDigitsCore_eq_decDigits (n + 1) n [] (Nat.lt_succ_self n), List.append_nil]

theorem natRepr_injective : Function.Injective Nat.repr := by
  intro m n h
  rw [repr_eq_decDigits, repr_eq_decDigits] at h
  have hdata : decDigits m = decDigits n := congrArg String.data h
  have hv := congrArg decVal hdata
  rwa [decVal_decDigits, decVal_decDigits] at hv

theorem docId_injective : Function.Injective fun i : Nat => "doc_" ++ Nat.repr i := by
  intro m n h
  apply natRepr_injective
  have hdata := congrArg String.data h
  simp only [String.data_append] at hdata
  exact String.ext (List.append_cancel_left hdata)

/-! ### Trace helpers -/

/-- The upsert payloads issued in a trace, in issue order. -/
def upsertsOf (t : List Effect) : List (List IndexRecord) :=
  t.filterMap fun e =>
    match e with
    | Effect.upsert _ b => some b
    | _ => none

theorem upsertsOf_append (a b : List Effect) :
    upsertsOf (a ++ b) = upsertsOf a ++ upsertsOf b := by
  simp [upsertsOf, List.filterMap_append]

theorem upsertsOf_upsert_phase (records : List IndexRecord) :
    upsertsOf (upsert_phase records) = upsertBatches records := by
  unfold upsert_phase upsertBatches
  generalize List.range' 0 ((records.length + 50 - 1) / 50) 50 = l
  induction l with
  | nil => rfl
  | cons i l ih =>
      simp only [List.flatMap_cons, List.map_cons, upsertsOf_append, ih]
      rfl

theorem upsert_phase_mem (records : List IndexRecord) :
    ∀ e ∈ upsert_phase records,
      (∃ m, e = Effect.print m) ∨ ∃ b, e = Effect.upsert "default" b := by
  intro e he
  unfold upsert_phase at he
  obtain ⟨i, _, hi⟩ := List.mem_flatMap.1 he
  simp only [List.mem_cons, List.not_mem_nil, or_false] at hi
  rcases hi with h | h
  · exact Or.inl ⟨_, h⟩
  · exact Or.inr ⟨_, h⟩

theorem buildRecords_length (documents : List Chunk) :
    (buildRecords documents).length = documents.length := by
  unfold buildRecords
  rw [List.length_map, List.enum_length]

theorem buildRecords_getElem? (documents : List Chunk) (i : Nat) (c : Chunk)
    (h : documents[i]? = some c) :
    (buildRecords documents)[i]? =
      some { _id := "doc_" ++ Nat.repr i, chunk_text := c.page_content,
             category := "budget" } := by
  unfold buildRecords
  rw [List.getElem?_map, List.getElem?_enum, h]
  rfl

theorem buildRecords_ids (documents : List Chunk) :
    ((buildRecords documents).map fun r => r._id)
      = (List.range documents.length).map fun i => "doc_" ++ Nat.repr i := by
  unfold buildRecords
  rw [List.map_map, ← List.enum_map_fst documents, List.map_map]
  rfl

theorem buildRecords_ids_nodup (documents : List Chunk) :
    ((buildRecords documents).map fun r => r._id).Nodup := by
  rw [buildRecords_ids]
  exact (List.nodup_range _).map docId_injective

theorem read_doc_trace_prints (d : String) (r : Except String (List Document)) :
    ∀ e ∈ (read_doc d r).2, ∃ m, e = Effect.print m := by
  intro e he
  cases r with
  | ok docs =>
      by_cases hd : docs.isEmpty <;> simp [read_doc, hd] at he
      exact ⟨_, he⟩
  | error msg =>
      simp [read_doc] at he
      exact ⟨_, he⟩

/-! ### Claims -/

/-- A concrete one-page document used by witnesses. -/
def wdoc (s : String) : Document :=
  { source := "a.pdf", page := 0, page_content := s }

/-- C1: for every record sequence, the upsert phase of `setup_pinecone_index`
issues exactly `⌈n/50⌉ = (n + 50 - 1) / 50` batches, each of size at most 50,
every batch except possibly the last of size exactly 50, and concatenating
the batches in issue order reconstructs the record sequence; the batches the
setup trace actually upserts are exactly `upsertBatches` of the built
records. -/
theorem C1_upsert_batching (records : List IndexRecord)
    (existing : List String) (documents : List Chunk) :
    ((upsertBatches records).length = (records.length + 50 - 1) / 50
      ∧ (∀ b ∈ upsertBatches records, b.length ≤ 50)
      ∧ (∀ b ∈ (upsertBatches records).dropLast, b.length = 50)
      ∧ (upsertBatches records).flatten = records)
    ∧ upsertsOf (setup_pinecone_index existing documents).2
        = upsertBatches (buildRecords documents) := by
  refine ⟨⟨upsertBatches_length records, upsertBatches_size_le records,
    upsertBatches_full_size records, upsertBatches_flatten records⟩, ?_⟩
  unfold setup_pinecone_index
  simp only [upsertsOf_append, upsertsOf_upsert_phase]
  by_cases h : index_name ∈ existing <;> simp [upsertsOf, h]

/-- Witness for C1 at a concrete 2-chunk build: the single batch
reconstructs the records, and its size bound holds, with the membership
hypothesis discharged at the concrete batch. -/
theorem C1_upsert_batching_witness :
    (upsertBatches (buildRecords [wdoc "x", wdoc "y"])).flatten
        = buildRecords [wdoc "x", wdoc "y"]
    ∧ (buildRecords [wdoc "x", wdoc "y"]).length ≤ 50 := by
  have h := C1_upsert_batching (buildRecords [wdoc "x", wdoc "y"])
    ["lanchain"] [wdoc "x", wdoc "y"]
  exact ⟨h.1.2.2.2, h.1.2.1 (buildRecords [wdoc "x", wdoc "y"]) (by decide)⟩

/-- C2: `setup_pinecone_index` builds one record per chunk; the `i`-th
record has identifier `doc_i`, carries the `i`-th chunk text and the
constant category `"budget"` (so identifiers depend only on position), and
the identifiers are pairwise distinct. -/
theorem C2_index_records (documents : List Chunk) :
    (buildRecords documents).length = documents.length
    ∧ (∀ i c, documents[i]? = some c →
        (buildRecords documents)[i]? =
          some ({ _id := "doc_" ++ Nat.repr i, chunk_text := c.page_content,
                  category := "budget" } : IndexRecord))
    ∧ ((buildRecords documents).map fun r => r._id).Nodup :=
  ⟨buildRecords_length documents,
   fun i c h => buildRecords_getElem? documents i c h,
   buildRecords_ids_nodup documents⟩

/-- Witness for C2 at a concrete 2-chunk build, index 1. -/
theorem C2_index_records_witness :
    (buildRecords [wdoc "hello", wdoc "world"])[1]? =
      some ({ _id := "doc_" ++ Nat.repr 1, chunk_text := "world",
              category := "budget" } : IndexRecord) :=
  (C2_index_records [wdoc "hello", wdoc "world"]).2.1 1 (wdoc "world") (by decide)

/-- C3: with a non-empty document sequence and `chunk_overlap ≥ chunk_size`,
`chunk_data` fails fast with the validation error (spec-modelled splitter
constructor) instead of producing chunks. -/
theorem C3_chunker_validates (split : List Document → List Chunk)
    (docs : List Document) (chunk_size chunk_overlap : Nat)
    (hne : docs ≠ []) (hov : chunk_size ≤ chunk_overlap) :
    (chunk_data split docs chunk_size chunk_overlap).1 =
      Except.error "Got a larger chunk overlap than chunk size, should be smaller." := by
  obtain ⟨a, t, rfl⟩ := List.exists_cons_of_ne_nil hne
  simp only [chunk_data, mkTextSplitter, List.isEmpty_cons, Bool.false_eq_true,
    if_false, if_neg (Nat.not_lt.2 hov)]

/-- Witness for C3: one document, chunk size 5, overlap 5. -/
theorem C3_chunker_validates_witness :
    (chunk_data (fun _ => []) [wdoc "x"] 5 5).1 =
      Except.error "Got a larger chunk overlap than chunk size, should be smaller." :=
  C3_chunker_validates (fun _ => []) [wdoc "x"] 5 5 (by decide) (by decide)

/-- C6: `read_doc` is total over every loader outcome: on any loader
exception it returns the empty list (after a printed report), and on a
successful load it returns the loaded documents; no exception propagates
(the return type carries no error). -/
theorem C6_read_doc_recovers (directory : String) :
    (∀ e : String, read_doc directory (Except.error e) =
        ([], [Effect.print ("Error loading documents from " ++ directory ++ ": " ++ e)]))
    ∧ ∀ docs : List Document, (read_doc directory (Except.ok docs)).1 = docs :=
  ⟨fun _ => rfl, fun _ => rfl⟩

/-- C5: if either required credential is absent or empty, the entry guard
prints a message listing exactly the missing variable names and exits with
code 1 without running the pipeline; if both are present (non-empty), it
runs `main`. `missing_vars env` is exactly the sublist of `required_vars`
whose value is missing. -/
theorem C5_credential_guard (env : String → Option String)
    (loadResult : Except String (List Document))
    (split : List Document → List Chunk) (existing : List String)
    (oracle : QueryRequest → List Hit)
    (generator : String → List Hit → String) :
    (envMissing (env "GOOGLE_API_KEY") = true ∨ envMissing (env "PINECONE_API_KEY") = true →
      entry_point env loadResult split existing oracle generator =
        ([Effect.print ("Error: Missing required environment variables: "
            ++ String.intercalate ", " (missing_vars env)),
          Effect.print "Please create a .env file with your API keys."], some 1)
      ∧ ∀ v, v ∈ missing_vars env ↔ v ∈ required_vars ∧ envMissing (env v) = true)
    ∧ (envMissing (env "GOOGLE_API_KEY") = false →
       envMissing (env "PINECONE_API_KEY") = false →
      entry_point env loadResult split existing oracle generator =
        (main_run loadResult split existing oracle generator, none)) := by
  constructor
  · intro h
    constructor
    · have hne : (missing_vars env).isEmpty = false := by
        rcases h with h | h
        · simp [missing_vars, required_vars, List.filter, h]
        · simp only [missing_vars, required_vars, List.filter, h]
          cases envMissing (env "GOOGLE_API_KEY") <;> simp
      simp [entry_point, hne]
    · intro v
      simp [missing_vars, List.mem_filter]
  · intro h1 h2
    have hmv : missing_vars env = [] := by
      simp [missing_vars, required_vars, List.filter, h1, h2]
    simp [entry_point, hmv]

/-- Witness for C5 with both credentials absent: exit code 1 and both names
listed. -/
theorem C5_credential_guard_witness :
    entry_point (fun _ => none) (Except.ok []) (fun _ => []) []
        (fun _ => []) (fun _ _ => "") =
      ([Effect.print ("Error: Missing required environment variables: "
          ++ String.intercalate ", " (missing_vars fun _ => none)),
        Effect.print "Please create a .env file with your API keys."], some 1)
    ∧ ("GOOGLE_API_KEY" ∈ missing_vars (fun _ => none)
        ∧ "PINECONE_API_KEY" ∈ missing_vars (fun _ => none)) := by
  have h := (C5_credential_guard (fun _ => none) (Except.ok []) (fun _ => []) []
    (fun _ => []) (fun _ _ => "")).1 (Or.inl rfl)
  exact ⟨h.1, ((h.2 "GOOGLE_API_KEY").2 (by decide)),
    ((h.2 "PINECONE_API_KEY").2 (by decide))⟩

/-- C7: the build phase lists the indexes, and then — when the name is
present — prints, deletes it, sleeps 10, prints, creates the index with the
embedding model and the `text ↦ chunk_text` field map, sleeps 10, opens the
handle, and only then issues the upsert writes followed by the stats call;
when the name is absent, the same sequence runs without any delete. -/
theorem C7_reset_order (existing : List String) (documents : List Chunk) :
    (index_name ∈ existing →
      (setup_pinecone_index existing documents).2 =
        Effect.listIndexes ::
        Effect.print "Deleting existing index \x27lanchain\x27..." ::
        Effect.deleteIndex "lanchain" ::
        Effect.sleep 10 ::
        Effect.print "Creating index \x27lanchain\x27 with integrated embedding..." ::
        Effect.createIndex "lanchain" "aws" "us-east-1" "llama-text-embed-v2" "text" "chunk_text" ::
        Effect.sleep 10 ::
        Effect.openIndex "lanchain" ::
        (upsert_phase (buildRecords documents)
          ++ [Effect.print ("Upserted " ++ Nat.repr documents.length
                ++ " documents into index \x27" ++ index_name ++ "\x27."),
              Effect.describeStats]))
    ∧ (index_name ∉ existing →
      (setup_pinecone_index existing documents).2 =
        Effect.listIndexes ::
        Effect.print "Creating index \x27lanchain\x27 with integrated embedding..." ::
        Effect.createIndex "lanchain" "aws" "us-east-1" "llama-text-embed-v2" "text" "chunk_text" ::
        Effect.sleep 10 ::
        Effect.openIndex "lanchain" ::
        (upsert_phase (buildRecords documents)
          ++ [Effect.print ("Upserted " ++ Nat.repr documents.length
                ++ " documents into index \x27" ++ index_name ++ "\x27."),
              Effect.describeStats])
      ∧ ∀ nm, Effect.deleteIndex nm ∉ (setup_pinecone_index existing documents).2) := by
  constructor
  · intro h
    simp only [setup_pinecone_index, if_pos h, List.append_assoc, List.cons_append,
      List.nil_append]
    rfl
  · intro h
    refine ⟨by
      simp only [setup_pinecone_index, if_neg h, List.append_assoc, List.cons_append,
        List.nil_append]
      rfl, fun nm hmem => ?_⟩
    simp only [setup_pinecone_index, if_neg h, List.append_assoc, List.cons_append,
      List.nil_append, List.mem_cons, List.mem_append, List.not_mem_nil, or_false] at hmem
    rcases hmem with h1 | h1 | h1 | h1 | h1 | h1
    · cases h1
    · cases h1
    · cases h1
    · cases h1
    · cases h1
    · rcases h1 with h1 | h1 | h1
      · rcases upsert_phase_mem (buildRecords documents) _ h1 with ⟨m, hm⟩ | ⟨b, hb⟩
        · cases hm
        · cases hb
      · cases h1
      · cases h1

/-- Witness for C7: both branches at concrete inputs — the full reset trace
when `"lanchain"` is listed, and no delete effect when it is not. -/
theorem C7_reset_order_witness :
    (setup_pinecone_index ["lanchain"] []).2 =
      Effect.listIndexes ::
      Effect.print "Deleting existing index \x27lanchain\x27..." ::
      Effect.deleteIndex "lanchain" ::
      Effect.sleep 10 ::
      Effect.print "Creating index \x27lanchain\x27 with integrated embedding..." ::
      Effect.createIndex "lanchain" "aws" "us-east-1" "llama-text-embed-v2" "text" "chunk_text" ::
      Effect.sleep 10 ::
      Effect.openIndex "lanchain" ::
      (upsert_phase (buildRecords [])
        ++ [Effect.print ("Upserted " ++ Nat.repr (List.length ([] : List Chunk))
              ++ " documents into index \x27lanchain\x27."),
            Effect.describeStats])
    ∧ Effect.deleteIndex "lanchain" ∉ (setup_pinecone_index [] []).2 :=
  ⟨(C7_reset_order ["lanchain"] []).1 (by decide),
   ((C7_reset_order [] []).2 (by decide)).2 "lanchain"⟩

/-- C8: every upsert the build phase issues targets namespace `"default"`,
and every similarity query `retrieve_query` issues targets namespace
`"default"`. -/
theorem C8_namespace_consistency (existing : List String) (documents : List Chunk)
    (oracle : QueryRequest → List Hit) (q : String) (k : Nat) :
    (∀ ns b, Effect.upsert ns b ∈ (setup_pinecone_index existing documents).2 →
      ns = "default")
    ∧ (retrieve_query oracle q k).2 = [Effect.query "default" k q] := by
  refine ⟨fun ns b hmem => ?_, rfl⟩
  have hup : Effect.upsert ns b ∈ upsert_phase (buildRecords documents) := by
    rcases List.mem_append.1 hmem with h1 | h1
    · rcases List.mem_append.1 h1 with h2 | h2
      · exfalso
        by_cases h : index_name ∈ existing <;>
          simp [if_pos, if_neg, h] at h2
      · exact h2
    · simp at h1
  rcases upsert_phase_mem (buildRecords documents) _ hup with ⟨m, hm⟩ | ⟨b2, hb⟩
  · cases hm
  · exact (Effect.upsert.inj hb).1

/-- Witness for C8 at a concrete one-chunk build and a concrete query. -/
theorem C8_namespace_consistency_witness :
    ("default" : String) = "default"
    ∧ (retrieve_query (fun _ => []) "test" 2).2 = [Effect.query "default" 2 "test"] := by
  have h := C8_namespace_consistency [] [wdoc "x"] (fun _ => []) "test" 2
  exact ⟨h.1 "default" (buildRecords [wdoc "x"]) (by decide), h.2⟩

/-- C9: the answering path requests exactly `top_k = 2`: `retrieve_answers`
passes the default `k = 2` to `retrieve_query`, so the issued query carries
`top_k = 2` and — whenever the remote index honors `top_k` — the generation
call receives at most 2 retrieved records. -/
theorem C9_topk_default_two (oracle : QueryRequest → List Hit)
    (generator : String → List Hit → String) (q : String)
    (hk : ∀ req : QueryRequest, (oracle req).length ≤ req.top_k) :
    retrieve_query_default_k = 2
    ∧ (retrieve_answers oracle generator q).2 =
        Effect.query "default" 2 q ::
        [Effect.print ("Retrieved documents: "
            ++ toString (repr (oracle { ns := "default", top_k := 2, text := q }))),
         Effect.generate q (oracle { ns := "default", top_k := 2, text := q })]
    ∧ (oracle { ns := "default", top_k := 2, text := q }).length ≤ 2 :=
  ⟨rfl, rfl, hk { ns := "default", top_k := 2, text := q }⟩

/-- Witness for C9 with a concrete (empty-response) index oracle. -/
theorem C9_topk_default_two_witness :
    ((fun _ : QueryRequest => ([] : List Hit))
        { ns := "default", top_k := 2, text := "test" }).length ≤ 2 :=
  (C9_topk_default_two (fun _ => []) (fun _ _ => "") "test"
    (fun req => Nat.zero_le req.top_k)).2.2

/-- C4: when the loader yields zero documents (empty directory or a loader
failure), `main` prints a message and returns before any index operation:
the whole trace is prints only — no delete, create, upsert, query, or
generation effect is ever issued. -/
theorem C4_empty_short_circuit (loadResult : Except String (List Document))
    (split : List Document → List Chunk) (existing : List String)
    (oracle : QueryRequest → List Hit) (generator : String → List Hit → String)
    (h : (read_doc DOCUMENTS_DIRECTORY loadResult).1 = []) :
    main_run loadResult split existing oracle generator =
      Effect.print "Loading documents..." :: (read_doc DOCUMENTS_DIRECTORY loadResult).2
        ++ [Effect.print "Number of documents loaded: 0",
            Effect.print "No documents found. Please check the directory path."]
    ∧ ∀ e ∈ main_run loadResult split existing oracle generator,
        ∃ m, e = Effect.print m := by
  have htrace : main_run loadResult split existing oracle generator =
      Effect.print "Loading documents..." :: (read_doc DOCUMENTS_DIRECTORY loadResult).2
        ++ [Effect.print "Number of documents loaded: 0",
            Effect.print "No documents found. Please check the directory path."] := by
    simp only [main_run, h, List.isEmpty_nil, if_true, List.length_nil,
      List.append_assoc, List.cons_append]
    rfl
  refine ⟨htrace, ?_⟩
  rw [htrace]
  intro e he
  rcases List.mem_append.1 he with h3 | h3
  · rcases List.mem_cons.1 h3 with rfl | h4
    · exact ⟨_, rfl⟩
    · exact read_doc_trace_prints _ _ _ h4
  · rcases List.mem_cons.1 h3 with rfl | h4
    · exact ⟨_, rfl⟩
    · rcases List.mem_cons.1 h4 with rfl | h5
      · exact ⟨_, rfl⟩
      · cases h5

/-- Witness for C4: a loader returning zero documents short-circuits the
run with prints only. -/
theorem C4_empty_short_circuit_witness :
    main_run (Except.ok []) (fun _ => []) [] (fun _ => []) (fun _ _ => "") =
      Effect.print "Loading documents..."
          :: (read_doc DOCUMENTS_DIRECTORY (Except.ok [])).2
        ++ [Effect.print "Number of documents loaded: 0",
            Effect.print "No documents found. Please check the directory path."] :=
  (C4_empty_short_circuit (Except.ok []) (fun _ => []) [] (fun _ => [])
    (fun _ _ => "") rfl).1

/-- C10: a non-empty document list whose chunking yields zero chunks does
not short-circuit `main`: the run still deletes (when present) and
recreates the remote index, performs zero upserts, and proceeds to the
query and the generation call. -/
theorem C10_empty_chunks_proceeds (docs : List Document)
    (split : List Document → List Chunk) (existing : List String)
    (oracle : QueryRequest → List Hit) (generator : String → List Hit → String)
    (hne : docs ≠ []) (hsplit : split docs = []) (hpresent : index_name ∈ existing) :
    Effect.deleteIndex "lanchain" ∈ main_run (Except.ok docs) split existing oracle generator
    ∧ Effect.createIndex "lanchain" "aws" "us-east-1" "llama-text-embed-v2" "text" "chunk_text"
        ∈ main_run (Except.ok docs) split existing oracle generator
    ∧ (∀ ns b, Effect.upsert ns b ∉ main_run (Except.ok docs) split existing oracle generator)
    ∧ Effect.query "default" 2 QUERY ∈ main_run (Except.ok docs) split existing oracle generator
    ∧ Effect.generate QUERY (oracle { ns := "default", top_k := 2, text := QUERY })
        ∈ main_run (Except.ok docs) split existing oracle generator := by
  obtain ⟨a, t, rfl⟩ := List.exists_cons_of_ne_nil hne
  have hpres : "lanchain" ∈ existing := hpresent
  refine ⟨?_, ?_, fun ns b hmem => ?_, ?_, ?_⟩
  · simp [main_run, read_doc, chunk_data, mkTextSplitter, hsplit,
      setup_pinecone_index, hpres, buildRecords, upsert_phase,
      retrieve_answers, retrieve_query, retrieve_query_default_k, index_name]
  · simp [main_run, read_doc, chunk_data, mkTextSplitter, hsplit,
      setup_pinecone_index, hpres, buildRecords, upsert_phase,
      retrieve_answers, retrieve_query, retrieve_query_default_k, index_name]
  · simp [main_run, read_doc, chunk_data, mkTextSplitter, hsplit,
      setup_pinecone_index, hpres, buildRecords, upsert_phase,
      retrieve_answers, retrieve_query, retrieve_query_default_k, index_name] at hmem
  · simp [main_run, read_doc, chunk_data, mkTextSplitter, hsplit,
      setup_pinecone_index, hpres, buildRecords, upsert_phase,
      retrieve_answers, retrieve_query, retrieve_query_default_k, index_name]
  · simp [main_run, read_doc, chunk_data, mkTextSplitter, hsplit,
      setup_pinecone_index, hpres, buildRecords, upsert_phase,
      retrieve_answers, retrieve_query, retrieve_query_default_k, index_name]

/-- Witness for C10: one document, a splitter returning zero chunks, index
present — the query is still issued. -/
theorem C10_empty_chunks_proceeds_witness :
    Effect.query "default" 2 QUERY ∈
      main_run (Except.ok [wdoc "x"]) (fun _ => []) ["lanchain"]
        (fun _ => []) (fun _ _ => "ans") :=
  (C10_empty_chunks_proceeds [wdoc "x"] (fun _ => []) ["lanchain"]
    (fun _ => []) (fun _ _ => "ans") (by decide) rfl (by decide)).2.2.2.1

end RAG
